import Mathlib

/-!
Verification of the `NetCoreTool` SDK gate (extensions/sql-database-projects,
`netcoreTool.ts`), the `ServerTreeDragAndDrop` handlers
(`serverTreeDragAndDrop.ts`), and the `NotebookViewsCardComponent` getters
(`notebookViewsCard.component.ts`) from the azuredatastudio repository.

The TypeScript fragments are shallowly embedded: mutable instance state and
external effects (filesystem probes, environment variables, configuration
reads, spawned child processes, shown dialogs) are made explicit as a world
record and as counted effects in the return values of the embedded
functions.
-/

namespace NetCore

/-! ### Semantic versions (model of the `semver` package as used by the tool)

The tool calls `semver.gte(capturedVersion, '3.1.0')`.  We model parsed
semantic versions and the `gte` comparison, including prerelease precedence
per semver: a prerelease version has lower precedence than the corresponding
release, numeric identifiers compare numerically and are lower than
alphanumeric ones.  Identifiers are kept as character lists so that all
definitions evaluate by kernel reduction. -/

structure SemVer where
  major : Nat
  minor : Nat
  patch : Nat
  prerelease : List (List Char)
deriving DecidableEq, Repr

def splitOnChar (c : Char) : List Char → List (List Char)
  | [] => [[]]
  | x :: xs =>
    let r := splitOnChar c xs
    if x == c then [] :: r
    else
      match r with
      | [] => [[x]]
      | h :: t => (x :: h) :: t

def isWS (c : Char) : Bool := c == ' ' || c == '\n' || c == '\r' || c == '\t'

def trimChars (l : List Char) : List Char :=
  ((l.dropWhile isWS).reverse.dropWhile isWS).reverse

def parseNumIdent (l : List Char) : Option Nat :=
  if l ≠ [] && l.all Char.isDigit then
    some (l.foldl (fun n c => n * 10 + (c.toNat - 48)) 0)
  else none

def takeUntilChar (c : Char) (l : List Char) : List Char :=
  l.takeWhile (fun x => x != c)

def dropThroughChar (c : Char) (l : List Char) : Option (List Char) :=
  match l.dropWhile (fun x => x != c) with
  | [] => none
  | _ :: rest => some rest

/-- Parse a version string the way `semver` accepts the strings the tool
feeds it: surrounding whitespace is ignored, an optional leading `v` and any
build-metadata suffix (after `+`) are dropped, the main part must be three
dot-separated numeric components, and an optional `-`-suffix is the
dot-separated prerelease identifier list.  Strings not of this shape make
the `semver` package throw; those return `none` here. -/
def parseSemVerChars (s : List Char) : Option SemVer :=
  let t0 := trimChars s
  let t1 := if t0.headD ' ' == 'v' then t0.tail else t0
  let t2 := takeUntilChar '+' t1
  let mainS := takeUntilChar '-' t2
  let preS := dropThroughChar '-' t2
  match splitOnChar '.' mainS with
  | [a, b, c] =>
    match parseNumIdent a, parseNumIdent b, parseNumIdent c with
    | some ma, some mi, some pa =>
      some ⟨ma, mi, pa, match preS with
        | none => []
        | some p => splitOnChar '.' p⟩
    | _, _, _ => none
  | _ => none

def parseSemVer (s : String) : Option SemVer := parseSemVerChars s.data

/-- Lexicographic comparison of character lists (ASCII code points). -/
def compareChars : List Char → List Char → Ordering
  | [], [] => .eq
  | [], _ :: _ => .lt
  | _ :: _, [] => .gt
  | a :: as, b :: bs =>
    match compare a.toNat b.toNat with
    | .eq => compareChars as bs
    | o => o

/-- semver prerelease identifier comparison: numeric identifiers compare
numerically and are always lower than alphanumeric identifiers. -/
def compareIdent (a b : List Char) : Ordering :=
  match parseNumIdent a, parseNumIdent b with
  | some x, some y => compare x y
  | some _, none => .lt
  | none, some _ => .gt
  | none, none => compareChars a b

/-- semver prerelease list comparison: a version without prerelease has
higher precedence than one with; otherwise identifiers compare pairwise,
and a strict prefix is lower. -/
def comparePre : List (List Char) → List (List Char) → Ordering
  | [], [] => .eq
  | [], _ :: _ => .gt
  | _ :: _, [] => .lt
  | a :: as, b :: bs =>
    match compareIdent a b with
    | .eq => comparePre as bs
    | o => o

def semverCompare (x y : SemVer) : Ordering :=
  match compare x.major y.major with
  | .eq =>
    match compare x.minor y.minor with
    | .eq =>
      match compare x.patch y.patch with
      | .eq => comparePre x.prerelease y.prerelease
      | o => o
    | o => o
  | o => o

/-- `semver.gte`. -/
def semverGte (x y : SemVer) : Bool := semverCompare x y ≠ .lt

/-! ### `NetCoreTool.onExit`

`onExit` wraps the child-process events in a promise:

* on the `exit` event (whatever its exit code or signal) it resolves with
  `semver.gte(this.netCoreSdkInstalledVersion!, '3.1.0')`; if no version
  string was captured, or the captured string is not a parseable version,
  `semver.gte` throws inside the event callback, so the promise never
  settles (`Outcome.threw`);
* on the `error` event (spawn-level failure) it rejects. -/

/-- An event delivered by the `dotnet --version` child process: `exit`
carries the exit code (or `null` with the terminating signal), `error` is a
spawn-level failure. -/
inductive ChildEvent where
  | exitEv (code : Option Int) (signal : Option String)
  | errorEv
deriving DecidableEq, Repr

inductive Outcome where
  | resolved (b : Bool)
  | rejected
  | threw
deriving DecidableEq, Repr

/-- The minimum supported version literal `'3.1.0'`. -/
def minNetCoreVersion : SemVer := ⟨3, 1, 0, []⟩

/-- `NetCoreTool.onExit`, as a function of the captured
`netCoreSdkInstalledVersion` (stdout of `dotnet --version`, `none` when no
`data` event fired) and the event the child process delivers. -/
def onExit (capturedVersion : Option String) : ChildEvent → Outcome
  | .exitEv _ _ =>
    match capturedVersion with
    | some s =>
      match parseSemVer s with
      | some v => .resolved (semverGte v minNetCoreVersion)
      | none => .threw
    | none => .threw
  | .errorEv => .rejected

/-! ### Installation discovery

The external state read by the tool: configuration values under the
`sqlDatabaseProjects` key, environment variables, the filesystem, and the
behaviour of the one `dotnet --version` child process a call may spawn. -/

structure DotNetWorld where
  /-- `os.platform()` (captured in the `osPlatform` field). -/
  osPlatform : String
  /-- `process.env` lookups. -/
  env : String → Option String
  /-- `os.homedir()`. -/
  homedir : String
  /-- `fs.existsSync`. -/
  fsExists : String → Bool
  /-- configuration value of `netCoreSDKLocation` (`none` when unset). -/
  configNetCoreSDKLocation : Option String
  /-- whether the `netCoreDoNotAsk` configuration value is `=== true`. -/
  configDoNotAskAgain : Bool
  /-- the event the spawned `dotnet --version` process would deliver. -/
  childEvent : ChildEvent
  /-- stdout captured from that process (`none`: no `data` event). -/
  capturedVersion : Option String

/-- `path.join(a, b)` (separator choice immaterial to the claims). -/
def pathJoin (a b : String) : String := a ++ "/" ++ b

/-- `NetCoreTool.getDotnetPathIfPresent`: a candidate folder is accepted iff
joining it with the fixed name `'dotnet'` yields an existing path. -/
def getDotnetPathIfPresent (fs : String → Bool) : Option String → Option String
  | some folderPath =>
    if fs (pathJoin folderPath "dotnet") then some (pathJoin folderPath "dotnet")
    else none
  | none => none

/-- `NetCoreTool.defaultWindowsLocation`: `%ProgramW6432%`,
`%ProgramFiles(x86)%`, `%ProgramFiles%`, first accepted candidate wins. -/
def defaultWindowsLocation (w : DotNetWorld) : Option String :=
  (getDotnetPathIfPresent w.fsExists (w.env "ProgramW6432")).orElse fun _ =>
    (getDotnetPathIfPresent w.fsExists (w.env "ProgramFiles(x86)")).orElse fun _ =>
      getDotnetPathIfPresent w.fsExists (w.env "ProgramFiles")

/-- `NetCoreTool.defaultnonWindowsLocation`: the fixed
`/usr/local/share` default, then the home directory. -/
def defaultnonWindowsLocation (w : DotNetWorld) : Option String :=
  (getDotnetPathIfPresent w.fsExists (some "/usr/local/share")).orElse fun _ =>
    (getDotnetPathIfPresent w.fsExists (some w.homedir)).orElse fun _ => none

/-- `NetCoreTool.defaultLocalInstallLocationByDistribution`. -/
def defaultLocalInstallLocationByDistribution (w : DotNetWorld) : Option String :=
  if w.osPlatform = "win32" then defaultWindowsLocation w
  else if w.osPlatform = "darwin" ∨ w.osPlatform = "linux" then
    defaultnonWindowsLocation w
  else none

/-- `NetCoreTool.netcoreInstallLocation`: the configured override when
truthy (JavaScript `||`, so an empty string falls through), else the
platform default. -/
def netcoreInstallLocation (w : DotNetWorld) : Option String :=
  match w.configNetCoreSDKLocation with
  | some s => if s = "" then defaultLocalInstallLocationByDistribution w else some s
  | none => defaultLocalInstallLocationByDistribution w

/-- `NetCoreTool.isNetCoreInstallationPresent`: the resolved location is
defined and exists on disk. -/
def isNetCoreInstallationPresent (w : DotNetWorld) : Bool :=
  match netcoreInstallLocation w with
  | some loc => w.fsExists loc
  | none => false

/-! ### The presence + support gate -/

inductive NetCoreFindError where
  | netCoreNotPresent
  | netCoreVersionNotSupported
  | noError
deriving DecidableEq, Repr

/-- Result of `isNetCoreVersionSupported` as observed by its caller:
`hang` models the promise never settling (the `semver.gte` call threw
inside the `exit` listener), `indeterminate` the caught rejection
(`undefined`). -/
inductive VersionCheckResult where
  | supported
  | unsupported
  | indeterminate
  | hang
deriving DecidableEq, Repr

/-- `NetCoreTool.isNetCoreVersionSupported`: spawns `dotnet --version` and
interprets the `onExit` outcome; a rejection is caught and turned into
`undefined` (here `indeterminate`). -/
def isNetCoreVersionSupportedResult (w : DotNetWorld) : VersionCheckResult :=
  match onExit w.capturedVersion w.childEvent with
  | .resolved true => .supported
  | .resolved false => .unsupported
  | .rejected => .indeterminate
  | .threw => .hang

/-- The user's response to the install dialog. -/
inductive UserChoice where
  | updateNetCoreLocation
  | installNetCore
  | doNotAskAgain
  | dismissed
deriving DecidableEq, Repr

structure DialogOutcome where
  /-- number of `showInformationMessage` calls made. -/
  messagesShown : Nat
  /-- whether the message was the version-unsupported variant. -/
  versionVariantMessage : Bool
  /-- whether the `netCoreDoNotAsk` flag was persisted to `true`. -/
  configUpdatedDoNotAsk : Bool
deriving DecidableEq, Repr

/-- `NetCoreTool.showInstallDialog`: shows exactly one information message
(whose text depends on the recorded error kind) and persists the
do-not-ask flag iff the user picks `DoNotAskAgain`. -/
def showInstallDialog (err : NetCoreFindError) (choice : UserChoice) : DialogOutcome :=
  ⟨1, err ≠ .netCoreNotPresent, choice = .doNotAskAgain⟩

/-- Observable outcome of one `findOrInstallNetCore` call. `result = none`
models the call never returning (the version-check promise never
settles). -/
structure FindOutcome where
  result : Option Bool
  /-- child processes spawned during the call. -/
  spawns : Nat
  /-- install-prompt dialogs shown during the call. -/
  dialogs : Nat
deriving DecidableEq, Repr

/-- `NetCoreTool.findOrInstallNetCore`.  JavaScript evaluates
`(!present || !await isNetCoreVersionSupported()) && doNotAsk !== true`
left to right: when no installation is present the version check is
short-circuited away (no spawn); when one is present the check always runs
(one spawn) before the do-not-ask flag is consulted. -/
def findOrInstallNetCore (w : DotNetWorld) (choice : UserChoice) : FindOutcome :=
  if isNetCoreInstallationPresent w then
    match isNetCoreVersionSupportedResult w with
    | .supported => ⟨some true, 1, 0⟩
    | .hang => ⟨none, 1, 0⟩
    | _ =>
      if w.configDoNotAskAgain then ⟨some true, 1, 0⟩
      else ⟨some false, 1,
        (showInstallDialog .netCoreVersionNotSupported choice).messagesShown⟩
  else
    if w.configDoNotAskAgain then ⟨some true, 0, 0⟩
    else ⟨some false, 0,
      (showInstallDialog .netCoreNotPresent choice).messagesShown⟩

/-! ### `NetCoreTool.runStreamedCommand`

The child's `data` events are modelled as a list of stdout/stderr chunks in
arrival order; the output channel as the list of lines appended to it. -/

inductive StreamEvent where
  | out (s : String)
  | err (s : String)
deriving DecidableEq, Repr

/-- Default text of the localized `"    stdout: "` header. -/
def stdoutHeader : String := "    stdout: "

/-- Default text of the localized `"    stderr: "` header. -/
def stderrHeader : String := "    stderr: "

/-- The `/\r?\n/` split used by `outputDataChunk`: split on `\n`, an
immediately preceding `\r` belongs to the separator. -/
def splitRN (s : String) : List String :=
  (s.splitOn "\n").map fun p => if p.endsWith "\r" then p.dropRight 1 else p

/-- `NetCoreTool.outputDataChunk`: one channel line per `/\r?\n/`-separated
piece of the chunk, each prefixed with the header. -/
def outputDataChunk (header s : String) : List String :=
  (splitRN s).map (header ++ ·)

/-- One `data` event of `runStreamedCommand`: a stdout chunk is pushed onto
`stdoutData` and echoed to the channel under the stdout header; a stderr
chunk is only echoed under the stderr header. -/
def runStreamedStep (acc : List String × List String) : StreamEvent → List String × List String
  | .out s => (acc.1 ++ [s], acc.2 ++ outputDataChunk stdoutHeader s)
  | .err s => (acc.1, acc.2 ++ outputDataChunk stderrHeader s)

/-- The terminal line the `exit` listener appends: the exit code when it is
non-null, otherwise the signal. -/
def exitLine (command : String) : Option Int × Option String → String
  | (some code, _) => "    >>> " ++ command ++ "    … exited with code: " ++ toString code
  | (none, signal) => "    >>> " ++ command ++ "   … exited with signal: " ++ signal.getD "null"

structure StreamedRun where
  /-- the string the returned promise resolves with (`stdoutData.join('')`). -/
  result : String
  /-- the lines appended to the output channel. -/
  channelLines : List String
deriving DecidableEq, Repr

/-- `NetCoreTool.runStreamedCommand` over a completed child-process run:
the echo line, then the per-chunk lines in arrival order, then the exit
line; the result is the concatenation of the accumulated stdout chunks. -/
def runStreamedCommand (command : String) (events : List StreamEvent)
    (exit : Option Int × Option String) : StreamedRun :=
  let acc := events.foldl runStreamedStep ([], [])
  { result := String.join acc.1
    channelLines := ("    > " ++ command) :: acc.2 ++ [exitLine command exit] }

/-- The stdout chunks of an event sequence, in arrival order. -/
def stdoutChunks (events : List StreamEvent) : List String :=
  events.filterMap fun
    | .out s => some s
    | .err _ => none

/-- The channel lines a single chunk contributes. -/
def chunkLines : StreamEvent → List String
  | .out s => outputDataChunk stdoutHeader s
  | .err s => outputDataChunk stderrHeader s

end NetCore

namespace ServerTree

/-! ### `ServerTreeDragAndDrop`

`ConnectionGroup` and `ConnectionProfile` are classes outside this
fragment; only the fields and methods the fragment reads are modelled
(`id`, `name`, `getParent()`).  `ConnectionGroup.equals`,
`ConnectionGroup.isAncestorOf`, the connection-management service's
`canChangeConnectionConfig` and the `UNSAVED_GROUP_ID` constant are also
external, so they are parameters of the embedded functions. -/

inductive ConnectionGroup where
  | mk (id : String) (name : String) (parent : Option ConnectionGroup)

def ConnectionGroup.id : ConnectionGroup → String
  | .mk i _ _ => i

def ConnectionGroup.name : ConnectionGroup → String
  | .mk _ n _ => n

def ConnectionGroup.parent : ConnectionGroup → Option ConnectionGroup
  | .mk _ _ p => p

structure ConnectionProfile where
  id : String
  serverName : String
  parent : Option ConnectionGroup

/-- An element of the server tree: a profile, a group, or anything else
(neither `instanceof ConnectionProfile` nor `instanceof ConnectionGroup`,
including an undefined drag source). -/
inductive TreeElement where
  | profile (p : ConnectionProfile)
  | group (g : ConnectionGroup)
  | other

/-- `ServerTreeDragAndDrop.getTargetGroup`: a profile's parent, a group
itself.  (`none` also stands for a profile without a parent, whose group
would be `undefined`.) -/
def getTargetGroup : TreeElement → Option ConnectionGroup
  | .profile p => p.parent
  | .group g => some g
  | .other => none

/-- `source.getParent()`. -/
def getParentOf : TreeElement → Option ConnectionGroup
  | .profile p => p.parent
  | .group g => g.parent
  | .other => none

inductive DragReaction where
  | acceptBubbleDown (autoExpand : Bool)
  | reject
deriving DecidableEq, Repr

/-- `ServerTreeDragAndDrop.onDragOver`, parameterized by the external
`canChangeConnectionConfig` service call and `isAncestorOf` method; the
drag source is `data.getData()[0]`.  `none` models the `TypeError` thrown
when a profile is dragged over a parentless profile
(`targetConnectionProfileGroup.id` on `undefined`). -/
def onDragOver (canChange : ConnectionProfile → String → Bool)
    (isAncestor : ConnectionGroup → TreeElement → Bool)
    (source target : TreeElement) : Option DragReaction :=
  match target with
  | .other => some .reject
  | _ =>
    match source with
    | .profile p =>
      match getTargetGroup target with
      | some t => some (if canChange p t.id then .acceptBubbleDown true else .reject)
      | none => none
    | .group g =>
      let targetId := match target with
        | .profile tp => tp.id
        | .group tg => tg.id
        | .other => ""
      some (if g.id != targetId && !isAncestor g target then .acceptBubbleDown true
        else .reject)
    | .other => some (.acceptBubbleDown true)

/-- A call into the connection configuration made by `drop`. -/
inductive ConfigChange where
  | changeGroupIdForConnection (profileId : String) (targetGroupId : String)
  | changeGroupIdForConnectionGroup (groupId : String) (targetGroupId : Option String)
deriving DecidableEq, Repr

/-- `ServerTreeDragAndDrop.isDropAllowed`, with `ConnectionGroup.equals`
(`eqG`, applied to a possibly-undefined argument) and `UNSAVED_GROUP_ID`
(`unsavedId`) as parameters. -/
def isDropAllowed (eqG : ConnectionGroup → Option ConnectionGroup → Bool)
    (unsavedId : String) (targetGroup : Option ConnectionGroup)
    (oldParent : Option ConnectionGroup) (source : TreeElement) : Bool :=
  let isDropToItself := match source, targetGroup with
    | .group g, some t => g.name == t.name
    | _, _ => false
  let isDropToSameLevel := match oldParent with
    | some op => eqG op targetGroup
    | none => false
  let isUnsavedDrag := match source with
    | .group g => g.id == unsavedId
    | _ => false
  !isDropToSameLevel && !isDropToItself && !isUnsavedDrag

/-- `ServerTreeDragAndDrop.drop`, returning the configuration calls it
makes.  `none` models the `TypeError` of reading `.id` on an undefined
target group in the profile branch. -/
def drop (eqG : ConnectionGroup → Option ConnectionGroup → Bool)
    (unsavedId : String) (source target : TreeElement) : Option (List ConfigChange) :=
  let tg := getTargetGroup target
  match source with
  | .other => some []
  | .profile p =>
    if isDropAllowed eqG unsavedId tg p.parent (.profile p) then
      match tg with
      | some t => some [.changeGroupIdForConnection p.id t.id]
      | none => none
    else some []
  | .group g =>
    if isDropAllowed eqG unsavedId tg g.parent (.group g) then
      some [.changeGroupIdForConnectionGroup g.id (tg.map ConnectionGroup.id)]
    else some []

end ServerTree

namespace NotebookCard

/-! ### `NotebookViewsCardComponent`

The `data`, `width` and `height` getters.  `INotebookViewCellMetadata` and
the view entries live outside this fragment; only the fields the getters
read are modelled.  Dimensions are kept abstract integers; the JavaScript
conditional `this.data?.width ? ... : DEFAULT` treats an absent field and
the value `0` alike as falsy.  The default constants are imported from
`notebookViewModel.ts` (not part of this fragment), so the getters are
parameterized by their values. -/

structure ViewEntry where
  guid : String
  width : Option Int
  height : Option Int
  hidden : Option Bool

structure CellViewMetadata where
  views : Option (List ViewEntry)

/-- The `data` getter:
`this._metadata?.views?.find(v => v.guid === this._activeView.guid)`. -/
def cardData (metadata : Option CellViewMetadata) (activeGuid : String) : Option ViewEntry :=
  match metadata with
  | none => none
  | some m =>
    match m.views with
    | none => none
    | some vs => vs.find? fun v => v.guid == activeGuid

/-- JavaScript truthiness of an optional numeric field. -/
def truthyNum : Option Int → Bool
  | some n => n != 0
  | none => false

/-- The `width` getter:
`this.data?.width ? this.data.width : DEFAULT_VIEW_CARD_WIDTH`. -/
def cardWidth (metadata : Option CellViewMetadata) (activeGuid : String)
    (defaultWidth : Int) : Int :=
  match cardData metadata activeGuid with
  | some e => if truthyNum e.width then e.width.getD 0 else defaultWidth
  | none => defaultWidth

/-- The `height` getter:
`this.data?.height ? this.data.height : DEFAULT_VIEW_CARD_HEIGHT`. -/
def cardHeight (metadata : Option CellViewMetadata) (activeGuid : String)
    (defaultHeight : Int) : Int :=
  match cardData metadata activeGuid with
  | some e => if truthyNum e.height then e.height.getD 0 else defaultHeight
  | none => defaultHeight

end NotebookCard

namespace NetCore

/-! ### Concrete worlds used in counterexamples and witnesses -/

/-- A world with no installation anywhere and nothing configured. -/
def wBase : DotNetWorld where
  osPlatform := "linux"
  env := fun _ => none
  homedir := "/home/user"
  fsExists := fun _ => false
  configNetCoreSDKLocation := none
  configDoNotAskAgain := false
  childEvent := .exitEv (some 0) none
  capturedVersion := none

/-- No installation, do-not-ask-again unset. -/
def wAbsentAsk : DotNetWorld := wBase

/-- No installation, do-not-ask-again set. -/
def wAbsentNoAsk : DotNetWorld := { wBase with configDoNotAskAgain := true }

/-- Installation present at the configured location, do-not-ask-again set,
`dotnet --version` printing `5.0.0` and exiting 0. -/
def wPresentNoAsk : DotNetWorld :=
  { wBase with
    configNetCoreSDKLocation := some "/sdk"
    fsExists := fun p => decide (p = "/sdk")
    configDoNotAskAgain := true
    capturedVersion := some "5.0.0" }

/-- Override configured to the empty string, while the Linux default
location does hold a `dotnet` folder. -/
def wEmptyOverride : DotNetWorld :=
  { wBase with
    configNetCoreSDKLocation := some ""
    fsExists := fun p => decide (p = "/usr/local/share/dotnet") }

/-- Override configured to `/custom/sdk`, with every default path also
existing on disk. -/
def wCustomOverride : DotNetWorld :=
  { wBase with
    configNetCoreSDKLocation := some "/custom/sdk"
    fsExists := fun _ => true }

/-- Windows world in which `%ProgramW6432%` points at a directory holding a
`dotnet` entry but no `dotnet.exe`. -/
def wWinNoExe : DotNetWorld :=
  { wBase with
    osPlatform := "win32"
    env := fun k => if k = "ProgramW6432" then some "C:/PF64" else none
    fsExists := fun p => decide (p = "C:/PF64/dotnet") }

/-- The Windows discovery procedure as claim C4 states it, for comparison:
each candidate directory is accepted only if joining it with the
platform-specific executable name `dotnet.exe` yields an existing path. -/
def claimedWindowsDiscovery (w : DotNetWorld) : Option String :=
  let tryDir : Option String → Option String := fun od =>
    match od with
    | some d =>
      if w.fsExists (pathJoin d "dotnet.exe") then some (pathJoin d "dotnet.exe")
      else none
    | none => none
  (tryDir (w.env "ProgramW6432")).orElse fun _ =>
    (tryDir (w.env "ProgramFiles(x86)")).orElse fun _ =>
      tryDir (w.env "ProgramFiles")

/-- First directory among `%ProgramW6432%`, `%ProgramFiles(x86)%`,
`%ProgramFiles%` (in order, skipping unset variables) whose join with the
fixed name `dotnet` exists, mapped to that joined path. -/
def firstDotnetMatch (w : DotNetWorld) : Option String :=
  (([w.env "ProgramW6432", w.env "ProgramFiles(x86)", w.env "ProgramFiles"].filterMap id).find?
    fun d => w.fsExists (pathJoin d "dotnet")).map fun d => pathJoin d "dotnet"

/-- The `||`-chain of `getDotnetPathIfPresent` probes over a candidate
list, used to relate `defaultWindowsLocation` to `firstDotnetMatch`. -/
def tryChain (fs : String → Bool) : List (Option String) → Option String
  | [] => none
  | d :: rest => (getDotnetPathIfPresent fs d).orElse fun _ => tryChain fs rest

end NetCore

namespace NetCore

/-! ### Theorems about the gate (claims C1, C7) -/

/-- C1, counterexample: with do-not-ask-again set but an installation
present, `findOrInstallNetCore` still spawns the `dotnet --version` child
process before the flag is consulted, so the claim that it "spawns no
child process" for every installation state is false. -/
theorem findOrInstall_doNotAsk_counterexample :
    wPresentNoAsk.configDoNotAskAgain = true ∧
      (findOrInstallNetCore wPresentNoAsk .dismissed).spawns ≠ 0 := by
  decide

/-- C1, amended: with do-not-ask-again set, `findOrInstallNetCore` never
returns `false` and shows no dialog; when no installation is present it
returns `true` immediately with no spawn, but when an installation is
present the version-check child process is still spawned. -/
theorem findOrInstall_doNotAsk (w : DotNetWorld) (c : UserChoice)
    (h : w.configDoNotAskAgain = true) :
    (findOrInstallNetCore w c).result ≠ some false ∧
      (findOrInstallNetCore w c).dialogs = 0 ∧
      (isNetCoreInstallationPresent w = false →
        findOrInstallNetCore w c = ⟨some true, 0, 0⟩) ∧
      (isNetCoreInstallationPresent w = true →
        (findOrInstallNetCore w c).spawns = 1) := by
  unfold findOrInstallNetCore
  cases hp : isNetCoreInstallationPresent w
  · simp [hp, h]
  · cases hv : isNetCoreVersionSupportedResult w <;> simp [hp, hv, h]

theorem findOrInstall_doNotAsk_witness :
    findOrInstallNetCore wAbsentNoAsk .dismissed = ⟨some true, 0, 0⟩ :=
  (findOrInstall_doNotAsk wAbsentNoAsk .dismissed (by decide)).2.2.1 (by decide)

/-- C7: when no installation is present and do-not-ask-again is unset, one
call to `findOrInstallNetCore` returns `false`, spawns nothing, and shows
exactly one install-prompt dialog. -/
theorem findOrInstall_absent_prompts_once (w : DotNetWorld) (c : UserChoice)
    (h1 : isNetCoreInstallationPresent w = false)
    (h2 : w.configDoNotAskAgain = false) :
    findOrInstallNetCore w c = ⟨some false, 0, 1⟩ := by
  simp [findOrInstallNetCore, h1, h2, showInstallDialog]

theorem findOrInstall_absent_prompts_once_witness :
    findOrInstallNetCore wAbsentAsk .dismissed = ⟨some false, 0, 1⟩ :=
  findOrInstall_absent_prompts_once wAbsentAsk .dismissed (by decide) (by decide)

/-! ### Theorems about `onExit` (claim C2) -/

/-- C2, counterexample: a run whose child process exits with the non-zero
code 1 after printing version `2.0.0` resolves to `false` (it is not
rejected), so `false` is not reserved for "version below minimum after a
successful exit". -/
theorem onExit_nonzero_exit_counterexample :
    onExit (some "2.0.0") (ChildEvent.exitEv (some 1) none) = Outcome.resolved false := by
  decide

/-- C2, amended: `onExit` rejects exactly on the spawn-level `error` event;
an `exit` event never rejects, and its outcome is independent of the exit
code and signal — it is determined solely by the captured version string
(`false` meaning a successfully parsed version below the minimum). -/
theorem onExit_rejects_only_spawn_error (ver : Option String) (code : Option Int)
    (sig : Option String) :
    onExit ver ChildEvent.errorEv = Outcome.rejected ∧
      onExit ver (ChildEvent.exitEv code sig) ≠ Outcome.rejected ∧
      onExit ver (ChildEvent.exitEv code sig) =
        onExit ver (ChildEvent.exitEv (some 0) none) := by
  refine ⟨rfl, ?_, rfl⟩
  cases ver with
  | none => simp [onExit]
  | some s => cases h : parseSemVer s <;> simp [onExit, h]

/-! ### Theorems about installation discovery (claims C4, C5) -/

/-- C4, counterexample: discovery joins candidate directories with the
fixed name `dotnet`, not with the Windows executable name `dotnet.exe`: in
`wWinNoExe` no `dotnet.exe` exists under `%ProgramW6432%`, yet discovery
accepts the directory, and differs from the procedure the claim
describes. -/
theorem defaultWindowsLocation_counterexample :
    defaultWindowsLocation wWinNoExe = some "C:/PF64/dotnet" ∧
      wWinNoExe.fsExists "C:/PF64/dotnet.exe" = false ∧
      defaultWindowsLocation wWinNoExe ≠ claimedWindowsDiscovery wWinNoExe := by
  decide

/-- C4, amended: on Windows, discovery tries `%ProgramW6432%`,
`%ProgramFiles(x86)%`, `%ProgramFiles%` in that order, accepts a candidate
directory only if joining it with the fixed name `dotnet` (not the
platform executable name) yields an existing path, returns the first such
joined path, and yields `none` (no error) when no candidate matches. -/
lemma tryChain_eq_findFirst (fs : String → Bool) (l : List (Option String)) :
    tryChain fs l =
      ((l.filterMap id).find? fun d => fs (pathJoin d "dotnet")).map
        fun d => pathJoin d "dotnet" := by
  induction l with
  | nil => rfl
  | cons d rest ih =>
    cases d with
    | none => simpa [tryChain, getDotnetPathIfPresent, Option.orElse] using ih
    | some dir =>
      cases hf : fs (pathJoin dir "dotnet") <;>
        simp [tryChain, getDotnetPathIfPresent, Option.orElse, hf, ih, List.find?]

theorem defaultWindowsLocation_eq_firstMatch (w : DotNetWorld) :
    defaultWindowsLocation w = firstDotnetMatch w := by
  have h : defaultWindowsLocation w =
      tryChain w.fsExists
        [w.env "ProgramW6432", w.env "ProgramFiles(x86)", w.env "ProgramFiles"] := by
    simp only [tryChain, defaultWindowsLocation]
    congr 1
    funext _
    congr 1
    funext _
    cases getDotnetPathIfPresent w.fsExists (w.env "ProgramFiles") <;> rfl
  rw [h, tryChain_eq_findFirst]
  rfl

/-- C5, counterexample: an install-location override that is set in
configuration but empty is falsy in JavaScript, so `netcoreInstallLocation`
falls through to the platform default instead of returning the configured
value. -/
theorem netcoreInstallLocation_counterexample :
    wEmptyOverride.configNetCoreSDKLocation = some "" ∧
      netcoreInstallLocation wEmptyOverride = some "/usr/local/share/dotnet" ∧
      netcoreInstallLocation wEmptyOverride ≠ some "" := by
  decide

/-- C5, amended: whenever the configured install-location override is
present and non-empty, `netcoreInstallLocation` returns exactly that value,
independent of the platform, environment and filesystem contents. -/
theorem netcoreInstallLocation_override (w : DotNetWorld) (s : String)
    (h1 : w.configNetCoreSDKLocation = some s) (h2 : s ≠ "") :
    netcoreInstallLocation w = some s := by
  simp [netcoreInstallLocation, h1, h2]

theorem netcoreInstallLocation_override_witness :
    netcoreInstallLocation wCustomOverride = some "/custom/sdk" :=
  netcoreInstallLocation_override wCustomOverride "/custom/sdk" rfl (by decide)

/-! ### Theorems about the version comparison (claim C6) -/

lemma semverGte_floor (v : SemVer) :
    semverGte v minNetCoreVersion = true ↔
      (3 < v.major ∨ (v.major = 3 ∧ (1 < v.minor ∨ (v.minor = 1 ∧
        (0 < v.patch ∨ (v.patch = 0 ∧ v.prerelease = [])))))) := by
  obtain ⟨ma, mi, pa, pre⟩ := v
  simp only [semverGte, semverCompare, minNetCoreVersion, decide_eq_true_eq]
  rcases Nat.lt_trichotomy ma 3 with hmaj | hmaj | hmaj
  · rw [Nat.compare_eq_lt.2 hmaj]
    simp only [ne_eq, not_true_eq_false, false_iff]
    rintro (h | ⟨h, -⟩) <;> omega
  · subst hmaj
    rw [show compare (3 : Nat) 3 = Ordering.eq from Nat.compare_eq_eq.2 rfl]
    rcases Nat.lt_trichotomy mi 1 with hmin | hmin | hmin
    · rw [Nat.compare_eq_lt.2 hmin]
      simp only [ne_eq, not_true_eq_false, false_iff]
      rintro (h | ⟨-, h | ⟨h, -⟩⟩) <;> omega
    · subst hmin
      rw [show compare (1 : Nat) 1 = Ordering.eq from Nat.compare_eq_eq.2 rfl]
      rcases Nat.eq_zero_or_pos pa with hpat | hpat
      · subst hpat
        rw [show compare (0 : Nat) 0 = Ordering.eq from Nat.compare_eq_eq.2 rfl]
        cases pre with
        | nil => simp [comparePre]
        | cons a as => simp [comparePre]
      · rw [Nat.compare_eq_gt.2 hpat]
        simp only [ne_eq, reduceCtorEq, not_false_eq_true, true_iff]
        exact Or.inr ⟨trivial, Or.inr ⟨trivial, Or.inl hpat⟩⟩
    · rw [Nat.compare_eq_gt.2 hmin]
      simp only [ne_eq, reduceCtorEq, not_false_eq_true, true_iff]
      exact Or.inr ⟨trivial, Or.inl hmin⟩
  · rw [Nat.compare_eq_gt.2 hmaj]
    simp only [ne_eq, reduceCtorEq, not_false_eq_true, true_iff]
    exact Or.inl hmaj

/-- C6: for every captured string that parses as a semantic version `v`,
the promise resolves `true` exactly when `v` is at least `3.1.0` under
semantic-version precedence — strictly larger in `(major, minor, patch)`
lexicographic order, or equal to `3.1.0` with no prerelease tag (a
prerelease of the floor, e.g. `3.1.0-rc.1`, has lower precedence). -/
theorem onExit_supported_iff (s : String) (v : SemVer) (code : Option Int)
    (sig : Option String) (h : parseSemVer s = some v) :
    onExit (some s) (ChildEvent.exitEv code sig) = Outcome.resolved true ↔
      (3 < v.major ∨ (v.major = 3 ∧ (1 < v.minor ∨ (v.minor = 1 ∧
        (0 < v.patch ∨ (v.patch = 0 ∧ v.prerelease = [])))))) := by
  rw [show onExit (some s) (ChildEvent.exitEv code sig) =
      Outcome.resolved (semverGte v minNetCoreVersion) by simp [onExit, h]]
  rw [show (Outcome.resolved (semverGte v minNetCoreVersion) = Outcome.resolved true) ↔
      (semverGte v minNetCoreVersion = true) by simp]
  exact semverGte_floor v

/-- C6 witness: the floor itself, `3.1.0`, is supported. -/
theorem onExit_supported_iff_witness :
    onExit (some "3.1.0") (ChildEvent.exitEv (some 0) none) = Outcome.resolved true :=
  (onExit_supported_iff "3.1.0" ⟨3, 1, 0, []⟩ (some 0) none (by decide)).mpr (by decide)

/-! ### Theorems about `runStreamedCommand` (claim C3) -/

lemma runStreamedStep_foldl (events : List StreamEvent) (a b : List String) :
    events.foldl runStreamedStep (a, b) =
      (a ++ stdoutChunks events, b ++ (events.map chunkLines).flatten) := by
  induction events generalizing a b with
  | nil => simp [stdoutChunks]
  | cons e es ih =>
    cases e <;>
      simp [runStreamedStep, stdoutChunks, chunkLines, ih, List.append_assoc]

/-- C3: for every sequence of stdout/stderr chunks, the resolved string is
exactly the stdout chunks concatenated in arrival order (so it contains no
stderr content), and the output channel receives, between the echo line and
the exit line, precisely each chunk split into lines under its
`"    stdout: "` / `"    stderr: "` header, in arrival order — stderr
chunks contribute only such channel lines, never to the result. -/
theorem runStreamedCommand_result (command : String) (events : List StreamEvent)
    (exit : Option Int × Option String) :
    (runStreamedCommand command events exit).result =
        String.join (stdoutChunks events) ∧
      (runStreamedCommand command events exit).channelLines =
        ("    > " ++ command) :: (events.map chunkLines).flatten
          ++ [exitLine command exit] := by
  unfold runStreamedCommand
  rw [runStreamedStep_foldl events [] []]
  simp

end NetCore

namespace ServerTree

/-! ### Theorems about drag and drop (claims C8, C9) -/

/-- C8: `onDragOver` returns `DRAG_OVER_REJECT` for every target element
that is neither a `ConnectionProfile` nor a `ConnectionGroup`, regardless
of the dragged source data and of the external service behaviour. -/
theorem onDragOver_rejects_non_tree_target
    (canChange : ConnectionProfile → String → Bool)
    (isAncestor : ConnectionGroup → TreeElement → Bool) (source : TreeElement) :
    onDragOver canChange isAncestor source TreeElement.other =
      some DragReaction.reject := rfl

/-- C9: `drop` makes no configuration change (no
`changeGroupIdForConnection` / `changeGroupIdForConnectionGroup` call)
whenever the source's current parent equals (`ConnectionGroup.equals`) the
target group, or the source is a `ConnectionGroup` whose name equals the
target group's name, or the source is a `ConnectionGroup` with the
unsaved-connections group id. -/
theorem drop_no_config_change (eqG : ConnectionGroup → Option ConnectionGroup → Bool)
    (unsavedId : String) (source target : TreeElement)
    (h : (∃ op, getParentOf source = some op ∧ eqG op (getTargetGroup target) = true) ∨
      (∃ g t, source = TreeElement.group g ∧ getTargetGroup target = some t ∧
        g.name = t.name) ∨
      (∃ g, source = TreeElement.group g ∧ g.id = unsavedId)) :
    drop eqG unsavedId source target = some [] := by
  rcases h with ⟨op, hop, heq⟩ | ⟨g, t, hs, ht, hn⟩ | ⟨g, hs, hid⟩
  · cases source with
    | other => simp [getParentOf] at hop
    | profile p =>
      simp only [getParentOf] at hop
      simp [drop, isDropAllowed, hop, heq]
    | group g =>
      simp only [getParentOf] at hop
      simp [drop, isDropAllowed, hop, heq]
  · subst hs
    simp [drop, isDropAllowed, ht, hn]
  · subst hs
    simp [drop, isDropAllowed, hid]

theorem drop_no_config_change_witness :
    drop (fun _ _ => false) "UNSAVED"
      (TreeElement.group (ConnectionGroup.mk "UNSAVED" "Unsaved" none))
      (TreeElement.group (ConnectionGroup.mk "root" "Servers" none)) = some [] :=
  drop_no_config_change (fun _ _ => false) "UNSAVED" _ _
    (Or.inr (Or.inr ⟨ConnectionGroup.mk "UNSAVED" "Unsaved" none, rfl, rfl⟩))

end ServerTree

namespace NotebookCard

/-! ### Theorems about the card getters (claim C10) -/

/-- C10: whenever the cell's per-view metadata yields no entry for the
active view (in particular when the metadata is absent), or the found
entry's `width` (respectively `height`) field is absent or `0` (falsy),
the `width` getter returns the default card width and the `height` getter
the default card height. -/
theorem card_default_dimensions (md : Option CellViewMetadata) (g : String)
    (dw dh : Int) :
    (cardData md g = none → cardWidth md g dw = dw ∧ cardHeight md g dh = dh) ∧
      (∀ e, cardData md g = some e → e.width = none ∨ e.width = some 0 →
        cardWidth md g dw = dw) ∧
      (∀ e, cardData md g = some e → e.height = none ∨ e.height = some 0 →
        cardHeight md g dh = dh) := by
  refine ⟨fun h => ?_, fun e he hw => ?_, fun e he hh => ?_⟩
  · simp [cardWidth, cardHeight, h]
  · rcases hw with hw | hw <;> simp [cardWidth, he, truthyNum, hw]
  · rcases hh with hh | hh <;> simp [cardHeight, he, truthyNum, hh]

theorem card_default_dimensions_witness :
    cardWidth (some ⟨some [⟨"view1", some 0, some 0, none⟩]⟩) "view1" 900 = 900 ∧
      cardHeight none "view1" 300 = 300 :=
  ⟨(card_default_dimensions (some ⟨some [⟨"view1", some 0, some 0, none⟩]⟩)
      "view1" 900 300).2.1 ⟨"view1", some 0, some 0, none⟩ rfl (Or.inr rfl),
    ((card_default_dimensions none "view1" 300 300).1 rfl).2⟩

end NotebookCard
